import Mathlib

/-!
Verification of the Volume Provisioning Coordinator of
`deckhouse/local-lvm-provisioner`.

The development shallowly embeds the Go functions of
`images/sds-local-volume-csi/src/pkg/utils/func.go` and
`images/sds-lvm-csi/pkg/utils/func.go`.  Kubernetes `resource.Quantity`
values are represented by their byte value (`.Value()`, an `int64`) as
`Int`.  Store interactions (the `client.Client` calls) are represented by
explicit scripts of outcomes supplied as arguments; context cancellation
and sleeping are represented as per-attempt events.
-/

/-! ### A model of Go `float64` conversion of integer byte values

`AreSizesEqualWithinDelta` converts `int64` byte values to `float64`
(`float64(leftSize.Value())`), subtracts, takes `math.Abs` and compares.
Conversion of an integer to `float64` and the subtraction of two
`float64` values round to the nearest representable value (53-bit
significand), ties to even.  All values arising from `int64` inputs are
finite, so the whole computation is captured exactly by integer rounding
functions. -/

/-- The binary exponent used when rounding a natural number `m ≥ 2^53` to a
`float64`: the least `e` with `m < 2^(53+e)`.  `int64` inputs give `e ≤ 11`,
far below the search bound of 64. -/
def floatExp (m : Nat) : Nat :=
  ((List.range 64).find? (fun e => decide (m < 2 ^ (53 + e)))).getD 64

/-- Round a natural number to the nearest `float64`-representable value
(53-bit significand, ties to even). -/
def roundNat53 (m : Nat) : Nat :=
  if m < 2 ^ 53 then m
  else
    let e := floatExp m
    let q := m / 2 ^ e
    let r := m % 2 ^ e
    if 2 * r < 2 ^ e then q * 2 ^ e
    else if 2 ^ e < 2 * r then (q + 1) * 2 ^ e
    else if q % 2 = 0 then q * 2 ^ e
    else (q + 1) * 2 ^ e

/-- Round an integer to the nearest `float64`-representable value: Go's
`float64(v)` conversion for an `int64` value `v`. -/
def roundFloat (n : Int) : Int :=
  if 0 ≤ n then (roundNat53 n.toNat : Int) else -(roundNat53 (-n).toNat : Int)

theorem roundNat53_eq_of_lt {m : Nat} (h : m < 2 ^ 53) : roundNat53 m = m := by
  unfold roundNat53
  rw [if_pos h]

theorem roundNat53_eq_of_le {m : Nat} (h : m ≤ 2 ^ 53) : roundNat53 m = m := by
  rcases Nat.lt_or_ge m (2 ^ 53) with h' | h'
  · exact roundNat53_eq_of_lt h'
  · have hm : m = 2 ^ 53 := Nat.le_antisymm h h'
    subst hm
    decide

theorem roundFloat_eq_of_natAbs_le {n : Int} (h : n.natAbs ≤ 2 ^ 53) :
    roundFloat n = n := by
  unfold roundFloat
  rcases le_or_lt 0 n with hn | hn
  · have h1 : n.toNat ≤ 2 ^ 53 := by
      omega
    rw [if_pos hn, roundNat53_eq_of_le h1]
    omega
  · have hn' : ¬ (0 ≤ n) := not_le.mpr hn
    have h1 : (-n).toNat ≤ 2 ^ 53 := by
      omega
    rw [if_neg hn', roundNat53_eq_of_le h1]
    omega

/-! ### `AreSizesEqualWithinDelta`

```go
func AreSizesEqualWithinDelta(leftSize, rightSize, allowedDelta resource.Quantity) bool {
    leftSizeFloat := float64(leftSize.Value())
    rightSizeFloat := float64(rightSize.Value())
    return math.Abs(leftSizeFloat-rightSizeFloat) < float64(allowedDelta.Value())
}
```

Both `func.go` copies are identical.  `math.Abs` and the final comparison
are exact on finite `float64` values, so only the two conversions and the
subtraction round. -/

/-- `AreSizesEqualWithinDelta` on the byte values of the three quantities,
with the `float64` arithmetic modelled exactly by `roundFloat`. -/
def AreSizesEqualWithinDelta (leftSize rightSize allowedDelta : Int) : Bool :=
  decide (((roundFloat (roundFloat leftSize - roundFloat rightSize)).natAbs : Int)
    < roundFloat allowedDelta)

example : AreSizesEqualWithinDelta (2 ^ 53) 0 (2 ^ 53 + 1) = false := by decide

example : AreSizesEqualWithinDelta (2 ^ 53 + 1) (-1) (2 ^ 53 + 2) = true := by decide

example : AreSizesEqualWithinDelta (10 * 2 ^ 30) (10 * 2 ^ 30) (2 ^ 30) = true := by
  decide

example : AreSizesEqualWithinDelta (11 * 2 ^ 30) (10 * 2 ^ 30) (2 ^ 30) = false := by
  decide

/-- Claim C3 counterexample: the Go code compares `float64` images of the
byte values, not exact integers.  At `(2^53, 0, 2^53+1)` the exact
comparison `|a-b| < t` holds but the code returns `false` (the tolerance
rounds down to `2^53`); at `(2^53+1, -1, 2^53+2)` the exact boundary
`a - b = t` holds, so the claim requires `false`, but the code returns
`true` (the difference rounds down to `2^53`). -/
theorem claim_C3_counterexample :
    (AreSizesEqualWithinDelta (2 ^ 53) 0 (2 ^ 53 + 1) = false ∧
      |(2 ^ 53 : Int) - 0| < 2 ^ 53 + 1) ∧
    (AreSizesEqualWithinDelta (2 ^ 53 + 1) (-1) (2 ^ 53 + 2) = true ∧
      (2 ^ 53 + 1 : Int) - (-1) = 2 ^ 53 + 2) :=
  ⟨⟨by decide, by decide⟩, by decide, by decide⟩

/-- Claim C3 (amended): `AreSizesEqualWithinDelta a b t` decides
`|a - b| < t` exactly whenever the byte values are small enough that the
`float64` arithmetic is exact (`|a|, |b| ≤ 2^52` and `|t| ≤ 2^53`); under
those bounds it is in particular true at `a = b` for a positive tolerance
and false on the boundary `a - b = t`. -/
theorem claim_C3_theorem (a b t : Int)
    (ha : a.natAbs ≤ 2 ^ 52) (hb : b.natAbs ≤ 2 ^ 52) (ht : t.natAbs ≤ 2 ^ 53) :
    AreSizesEqualWithinDelta a b t = decide (|a - b| < t) ∧
    (a = b → 0 < t → AreSizesEqualWithinDelta a b t = true) ∧
    (a - b = t → AreSizesEqualWithinDelta a b t = false) := by
  have ha' : roundFloat a = a := roundFloat_eq_of_natAbs_le (le_trans ha (by norm_num))
  have hb' : roundFloat b = b := roundFloat_eq_of_natAbs_le (le_trans hb (by norm_num))
  have hab : (a - b).natAbs ≤ 2 ^ 53 := by
    have := Int.natAbs_sub_le a b
    omega
  have ht' : roundFloat t = t := roundFloat_eq_of_natAbs_le ht
  have hmain : AreSizesEqualWithinDelta a b t = decide (|a - b| < t) := by
    unfold AreSizesEqualWithinDelta
    rw [ha', hb', roundFloat_eq_of_natAbs_le hab, ht', Int.abs_eq_natAbs]
  refine ⟨hmain, ?_, ?_⟩
  · intro hab0 ht0
    rw [hmain, hab0]
    simp [ht0]
  · intro habt
    rw [hmain, habt]
    exact decide_eq_false (not_lt.mpr (le_abs_self t))

/-- Witness for C3: concrete small sizes satisfy the bounds and the
amended equivalence evaluates. -/
theorem claim_C3_witness : AreSizesEqualWithinDelta (10 * 2 ^ 30) (10 * 2 ^ 30 + 7) (2 ^ 30) = true :=
  ((claim_C3_theorem (10 * 2 ^ 30) (10 * 2 ^ 30 + 7) (2 ^ 30)
    (by decide) (by decide) (by decide)).1).trans (by decide)

/-! ### Volume-group records and free-space selection

From `sds-local-volume-csi`:

```go
func GetNodeWithMaxFreeSpace(lvgs []snc.LVMVolumeGroup, storageClassLVGParametersMap map[string]string, lvmType string) (nodeName string, freeSpace resource.Quantity, err error) {
    var maxFreeSpace int64
    for _, lvg := range lvgs {
        switch lvmType {
        case internal.LVMTypeThick:
            freeSpace = lvg.Status.VGFree
        case internal.LVMTypeThin:
            thinPoolName, ok := storageClassLVGParametersMap[lvg.Name]
            if !ok { return "", freeSpace, fmt.Errorf(...) }
            freeSpace, err = GetLVMThinPoolFreeSpace(lvg, thinPoolName)
            if err != nil { return "", freeSpace, fmt.Errorf(...) }
        }
        if freeSpace.Value() > maxFreeSpace {
            nodeName = lvg.Status.Nodes[0].Name
            maxFreeSpace = freeSpace.Value()
        }
    }
    return nodeName, *resource.NewQuantity(maxFreeSpace, resource.BinarySI), nil
}
```

`lvg.Status.Nodes[0].Name` is modelled by `nodes.headD ""` (all records the
coordinator processes carry at least one node; Go would panic otherwise).
Quantities appear by their byte value. -/

structure LVMVolumeGroupThinPoolStatus where
  name : String
  availableSpace : Int
  deriving DecidableEq, Repr

/-- An `snc.LVMVolumeGroup` as consumed by the selection functions:
`Status.Nodes` (names only), `Status.VGFree` and `Status.ThinPools`. -/
structure LVMVolumeGroup where
  name : String
  nodes : List String
  vgFree : Int
  thinPools : List LVMVolumeGroupThinPoolStatus
  deriving DecidableEq, Repr

def LVMTypeThick : String := "Thick"

def LVMTypeThin : String := "Thin"

/-- `GetLVMThinPoolFreeSpace`: the `availableSpace` of the first thin pool
with the given name, or an error when none matches. -/
def GetLVMThinPoolFreeSpace (lvg : LVMVolumeGroup) (thinPoolName : String) :
    Except String Int :=
  match lvg.thinPools.find? (fun tp => tp.name == thinPoolName) with
  | some tp => .ok tp.availableSpace
  | none => .error ("thin pool " ++ thinPoolName ++ " not found in lvg " ++ lvg.name)

/-- The `Thin` branch of the `switch`: look the pool name up in the
storage-class parameters, then the pool in the group. -/
def thinPoolFreeSpaceOf (storageClassLVGParametersMap : String → Option String)
    (lvg : LVMVolumeGroup) : Except String Int :=
  match storageClassLVGParametersMap lvg.name with
  | none => .error ("thin pool name for lvg " ++ lvg.name ++
      " not found in storage class parameters")
  | some thinPoolName => GetLVMThinPoolFreeSpace lvg thinPoolName

/-- One iteration's free-space computation (the `switch lvmType` block).
When `lvmType` matches neither case, Go leaves the loop variable
`freeSpace` at its previous value, which is threaded as
`prevFreeSpace`. -/
def freeSpaceOf (storageClassLVGParametersMap : String → Option String)
    (lvmType : String) (prevFreeSpace : Int) (lvg : LVMVolumeGroup) :
    Except String Int :=
  if lvmType = LVMTypeThick then .ok lvg.vgFree
  else if lvmType = LVMTypeThin then
    thinPoolFreeSpaceOf storageClassLVGParametersMap lvg
  else .ok prevFreeSpace

/-- The loop of `GetNodeWithMaxFreeSpace`, carrying `nodeName`,
`maxFreeSpace` and the loop variable `freeSpace`. -/
def getNodeWithMaxFreeSpaceGo (storageClassLVGParametersMap : String → Option String)
    (lvmType : String) :
    List LVMVolumeGroup → String → Int → Int → Except String (String × Int)
  | [], nodeName, maxFreeSpace, _ => .ok (nodeName, maxFreeSpace)
  | lvg :: rest, nodeName, maxFreeSpace, prevFreeSpace =>
    match freeSpaceOf storageClassLVGParametersMap lvmType prevFreeSpace lvg with
    | .error e => .error e
    | .ok fs =>
      if fs > maxFreeSpace then
        getNodeWithMaxFreeSpaceGo storageClassLVGParametersMap lvmType rest
          (lvg.nodes.headD "") fs fs
      else
        getNodeWithMaxFreeSpaceGo storageClassLVGParametersMap lvmType rest
          nodeName maxFreeSpace fs

/-- `GetNodeWithMaxFreeSpace` (sds-local-volume-csi): `nodeName` starts
empty, `maxFreeSpace` and the loop variable start at zero. -/
def GetNodeWithMaxFreeSpace (lvgs : List LVMVolumeGroup)
    (storageClassLVGParametersMap : String → Option String) (lvmType : String) :
    Except String (String × Int) :=
  getNodeWithMaxFreeSpaceGo storageClassLVGParametersMap lvmType lvgs "" 0 0

/-- An `v1alpha1.LvmVolumeGroup` (sds-lvm-csi) as consumed by
`GetNodeMaxFreeVGSize`: `Status.VGSize` and `Status.AllocatedSize` are
size strings in Go; they appear here by their parsed byte values. -/
structure LvmVolumeGroup where
  name : String
  nodes : List String
  vgSize : Int
  allocatedSize : Int
  deriving DecidableEq, Repr

/-- `GetLVMVolumeGroupFreeSpace` (sds-lvm-csi): `VGSize − AllocatedSize`. -/
def GetLVMVolumeGroupFreeSpace (lvg : LvmVolumeGroup) : Int :=
  lvg.vgSize - lvg.allocatedSize

/-- The loop of `GetNodeMaxFreeVGSize` (sds-lvm-csi). -/
def getNodeMaxFreeVGSizeGo : List LvmVolumeGroup → String → Int → String × Int
  | [], nodeName, maxFreeSpace => (nodeName, maxFreeSpace)
  | lvg :: rest, nodeName, maxFreeSpace =>
    let freeSpace := GetLVMVolumeGroupFreeSpace lvg
    if freeSpace > maxFreeSpace then
      getNodeMaxFreeVGSizeGo rest (lvg.nodes.headD "") freeSpace
    else
      getNodeMaxFreeVGSizeGo rest nodeName maxFreeSpace

/-- `GetNodeMaxFreeVGSize` (sds-lvm-csi), applied to the listed group
items.  The surrounding bounded-retry `List` call is a store interaction
and is represented by supplying the successfully listed items. -/
def GetNodeMaxFreeVGSize (items : List LvmVolumeGroup) : String × Int :=
  getNodeMaxFreeVGSizeGo items "" 0

/-- The common running-maximum recursion on `(node, freeSpace)` pairs,
used to characterise both selection loops. -/
def maxFreeGo : List (String × Int) → String → Int → String × Int
  | [], nodeName, maxFreeSpace => (nodeName, maxFreeSpace)
  | p :: ps, nodeName, maxFreeSpace =>
    if p.2 > maxFreeSpace then maxFreeGo ps p.1 p.2
    else maxFreeGo ps nodeName maxFreeSpace

example :
    GetNodeWithMaxFreeSpace
      [⟨"lvg-a", ["node-1"], 5 * 2 ^ 30, []⟩,
       ⟨"lvg-b", ["node-2"], 12 * 2 ^ 30, []⟩,
       ⟨"lvg-c", ["node-3"], 12 * 2 ^ 30, []⟩]
      (fun _ => none) LVMTypeThick = .ok ("node-2", 12 * 2 ^ 30) := by
  rfl

theorem freeSpaceOf_thick (params : String → Option String) (prev : Int)
    (lvg : LVMVolumeGroup) :
    freeSpaceOf params LVMTypeThick prev lvg = .ok lvg.vgFree := by
  unfold freeSpaceOf
  rw [if_pos rfl]

/-- In `Thick` mode the selection loop is the running-maximum recursion on
`(hostNode, VGFree)` pairs. -/
theorem getNodeWithMaxFreeSpaceGo_thick (params : String → Option String) :
    ∀ (lvgs : List LVMVolumeGroup) (n0 : String) (m0 fs0 : Int),
      getNodeWithMaxFreeSpaceGo params LVMTypeThick lvgs n0 m0 fs0 =
        .ok (maxFreeGo (lvgs.map fun g => (g.nodes.headD "", g.vgFree)) n0 m0)
  | [], _, _, _ => rfl
  | lvg :: rest, n0, m0, fs0 => by
    rw [getNodeWithMaxFreeSpaceGo, freeSpaceOf_thick]
    simp only [List.map_cons, maxFreeGo]
    by_cases h : lvg.vgFree > m0
    · rw [if_pos h, if_pos h, getNodeWithMaxFreeSpaceGo_thick]
    · rw [if_neg h, if_neg h, getNodeWithMaxFreeSpaceGo_thick]

/-- The running-maximum recursion either keeps its accumulator (when no
pair exceeds it) or returns the first pair attaining the overall maximum:
strictly above the accumulator and every earlier pair, at least every
later pair. -/
theorem maxFreeGo_spec (ps : List (String × Int)) :
    ∀ (n0 : String) (m0 : Int),
      ((∀ p ∈ ps, p.2 ≤ m0) ∧ maxFreeGo ps n0 m0 = (n0, m0)) ∨
      (∃ i, ∃ hi : i < ps.length,
        maxFreeGo ps n0 m0 = ps[i] ∧ m0 < ps[i].2 ∧
        (∀ j, j < i → ∀ hj : j < ps.length, ps[j].2 < ps[i].2) ∧
        (∀ j, ∀ hj : j < ps.length, ps[j].2 ≤ ps[i].2)) := by
  induction ps with
  | nil =>
    intro n0 m0
    left
    exact ⟨by simp, rfl⟩
  | cons p ps ih =>
    intro n0 m0
    by_cases h : p.2 > m0
    · have hstep : maxFreeGo (p :: ps) n0 m0 = maxFreeGo ps p.1 p.2 := by
        rw [maxFreeGo, if_pos h]
      rcases ih p.1 p.2 with ⟨hall, heq⟩ | ⟨i, hi, heq, hgt, hbef, hall⟩
      · right
        refine ⟨0, by simp, ?_, ?_, ?_, ?_⟩
        · rw [hstep, heq]
          simp
        · simpa using h
        · intro j hj _
          omega
        · intro j hj
          cases j with
          | zero => simp
          | succ k =>
            simp only [List.getElem_cons_succ, List.getElem_cons_zero]
            exact hall _ (List.getElem_mem (by simpa using hj))
      · right
        refine ⟨i + 1, by simp only [List.length_cons]; omega, ?_, ?_, ?_, ?_⟩
        · rw [hstep, heq]
          simp
        · simp only [List.getElem_cons_succ]
          omega
        · intro j hj hjlen
          cases j with
          | zero =>
            simp only [List.getElem_cons_zero, List.getElem_cons_succ]
            exact hgt
          | succ k =>
            simp only [List.getElem_cons_succ]
            exact hbef k (by omega) (by omega)
        · intro j hjlen
          cases j with
          | zero =>
            simp only [List.getElem_cons_zero, List.getElem_cons_succ]
            exact le_of_lt hgt
          | succ k =>
            simp only [List.getElem_cons_succ]
            exact hall k (by simp only [List.length_cons] at hjlen; omega)
    · have h' : p.2 ≤ m0 := not_lt.mp h
      have hstep : maxFreeGo (p :: ps) n0 m0 = maxFreeGo ps n0 m0 := by
        rw [maxFreeGo, if_neg h]
      rcases ih n0 m0 with ⟨hall, heq⟩ | ⟨i, hi, heq, hgt, hbef, hall⟩
      · left
        refine ⟨?_, hstep.trans heq⟩
        intro q hq
        rcases List.mem_cons.mp hq with rfl | hq'
        · exact h'
        · exact hall q hq'
      · right
        refine ⟨i + 1, by simp only [List.length_cons]; omega, ?_, ?_, ?_, ?_⟩
        · rw [hstep, heq]
          simp
        · simp only [List.getElem_cons_succ]
          omega
        · intro j hj hjlen
          cases j with
          | zero =>
            simp only [List.getElem_cons_zero, List.getElem_cons_succ]
            omega
          | succ k =>
            simp only [List.getElem_cons_succ]
            exact hbef k (by omega) (by omega)
        · intro j hjlen
          cases j with
          | zero =>
            simp only [List.getElem_cons_zero, List.getElem_cons_succ]
            omega
          | succ k =>
            simp only [List.getElem_cons_succ]
            exact hall k (by simp only [List.length_cons] at hjlen; omega)

/-- The sds-lvm-csi selection loop is the same running-maximum recursion
on `(hostNode, VGSize − AllocatedSize)` pairs. -/
theorem getNodeMaxFreeVGSizeGo_eq :
    ∀ (items : List LvmVolumeGroup) (n0 : String) (m0 : Int),
      getNodeMaxFreeVGSizeGo items n0 m0 =
        maxFreeGo (items.map fun g => (g.nodes.headD "", GetLVMVolumeGroupFreeSpace g)) n0 m0
  | [], _, _ => rfl
  | lvg :: rest, n0, m0 => by
    rw [getNodeMaxFreeVGSizeGo]
    simp only [List.map_cons, maxFreeGo]
    by_cases h : GetLVMVolumeGroupFreeSpace lvg > m0
    · rw [if_pos h, if_pos h, getNodeMaxFreeVGSizeGo_eq]
    · rw [if_neg h, if_neg h, getNodeMaxFreeVGSizeGo_eq]

theorem freeSpaceOf_thin (params : String → Option String) (prev : Int)
    (lvg : LVMVolumeGroup) :
    freeSpaceOf params LVMTypeThin prev lvg = thinPoolFreeSpaceOf params lvg := by
  unfold freeSpaceOf
  rw [if_neg (by decide), if_pos rfl]

/-- In `Thin` mode, when every group's pool lookup succeeds with value
`f g`, the selection loop is the running-maximum recursion on
`(hostNode, f g)` pairs. -/
theorem getNodeWithMaxFreeSpaceGo_thin (params : String → Option String)
    (f : LVMVolumeGroup → Int) (lvgs : List LVMVolumeGroup) :
    (∀ g ∈ lvgs, thinPoolFreeSpaceOf params g = .ok (f g)) →
    ∀ (n0 : String) (m0 fs0 : Int),
      getNodeWithMaxFreeSpaceGo params LVMTypeThin lvgs n0 m0 fs0 =
        .ok (maxFreeGo (lvgs.map fun g => (g.nodes.headD "", f g)) n0 m0) := by
  induction lvgs with
  | nil => intro _ n0 m0 fs0; rfl
  | cons lvg rest ih =>
    intro h n0 m0 fs0
    rw [getNodeWithMaxFreeSpaceGo, freeSpaceOf_thin, h lvg (by simp)]
    simp only [List.map_cons, maxFreeGo]
    by_cases hc : f lvg > m0
    · rw [if_pos hc, if_pos hc]
      exact ih (fun g hg => h g (by simp [hg])) _ _ _
    · rw [if_neg hc, if_neg hc]
      exact ih (fun g hg => h g (by simp [hg])) _ _ _

theorem maxFreeGo_of_all_le (ps : List (String × Int)) :
    ∀ (n0 : String) (m0 : Int), (∀ p ∈ ps, p.2 ≤ m0) → maxFreeGo ps n0 m0 = (n0, m0) := by
  induction ps with
  | nil => intro n0 m0 _; rfl
  | cons p ps ih =>
    intro n0 m0 h
    rw [maxFreeGo, if_neg (not_lt.mpr (h p (by simp)))]
    exact ih n0 m0 fun q hq => h q (by simp [hq])

/-- Claim C1 counterexample: over the single-group list whose group has
zero free space, the group's free space (0) is strictly greater than that
of every group seen before it (there are none), yet the function returns
the empty node name, not the group's host node `node-1`: the running
maximum starts at 0 and only strictly positive free space wins. -/
theorem claim_C1_counterexample :
    GetNodeWithMaxFreeSpace [⟨"lvg-a", ["node-1"], 0, []⟩] (fun _ => none) LVMTypeThick
      = .ok ("", 0) ∧ ("" : String) ≠ "node-1" :=
  ⟨rfl, by decide⟩

/-- When some pair has strictly positive value, the running-maximum
recursion started at `("", 0)` returns the first pair attaining the
maximum: strictly above every earlier pair, at least every later pair. -/
theorem maxFreeGo_first_argmax (ps : List (String × Int))
    (hpos : ∃ p ∈ ps, 0 < p.2) :
    ∃ i, ∃ hi : i < ps.length,
      maxFreeGo ps "" 0 = ps[i] ∧
      (∀ j, j < i → ∀ hj : j < ps.length, ps[j].2 < ps[i].2) ∧
      (∀ j, ∀ hj : j < ps.length, ps[j].2 ≤ ps[i].2) := by
  rcases maxFreeGo_spec ps "" 0 with ⟨hall, _⟩ | ⟨i, hi, heq, _, hbef, halle⟩
  · exfalso
    obtain ⟨p, hp, hppos⟩ := hpos
    have := hall p hp
    omega
  · exact ⟨i, hi, heq, hbef, halle⟩

/-- Claim C1 (amended): provided some group has strictly positive free
space, each selection loop returns the host node of the first group
attaining the maximum free space — strictly above every earlier group, at
least every later group.  This is stated for `GetNodeWithMaxFreeSpace` in
`Thick` mode (free space `Status.VGFree`), for `GetNodeWithMaxFreeSpace`
in `Thin` mode (free space the resolved pool's `availableSpace`, whenever
every pool lookup succeeds), and for `GetNodeMaxFreeVGSize` (free space
`VGSize − AllocatedSize`); over free spaces `[5Gi, 12Gi, 12Gi]` both
functions return the first 12Gi group's node, never the second. -/
theorem claim_C1_theorem (lvgs : List LVMVolumeGroup) (params : String → Option String)
    (hpos : ∃ g ∈ lvgs, 0 < g.vgFree) :
    (∃ i, ∃ hi : i < lvgs.length,
      GetNodeWithMaxFreeSpace lvgs params LVMTypeThick =
        .ok (lvgs[i].nodes.headD "", lvgs[i].vgFree) ∧
      (∀ j, j < i → ∀ hj : j < lvgs.length, lvgs[j].vgFree < lvgs[i].vgFree) ∧
      (∀ j, ∀ hj : j < lvgs.length, lvgs[j].vgFree ≤ lvgs[i].vgFree)) ∧
    (∀ (tlvgs : List LVMVolumeGroup) (f : LVMVolumeGroup → Int),
      (∀ g ∈ tlvgs, thinPoolFreeSpaceOf params g = .ok (f g)) →
      (∃ g ∈ tlvgs, 0 < f g) →
      ∃ i, ∃ hi : i < tlvgs.length,
        GetNodeWithMaxFreeSpace tlvgs params LVMTypeThin =
          .ok (tlvgs[i].nodes.headD "", f tlvgs[i]) ∧
        (∀ j, j < i → ∀ hj : j < tlvgs.length, f tlvgs[j] < f tlvgs[i]) ∧
        (∀ j, ∀ hj : j < tlvgs.length, f tlvgs[j] ≤ f tlvgs[i])) ∧
    (∀ (items : List LvmVolumeGroup),
      (∃ g ∈ items, 0 < GetLVMVolumeGroupFreeSpace g) →
      ∃ i, ∃ hi : i < items.length,
        GetNodeMaxFreeVGSize items =
          (items[i].nodes.headD "", GetLVMVolumeGroupFreeSpace items[i]) ∧
        (∀ j, j < i → ∀ hj : j < items.length,
          GetLVMVolumeGroupFreeSpace items[j] < GetLVMVolumeGroupFreeSpace items[i]) ∧
        (∀ j, ∀ hj : j < items.length,
          GetLVMVolumeGroupFreeSpace items[j] ≤ GetLVMVolumeGroupFreeSpace items[i])) ∧
    GetNodeWithMaxFreeSpace
      [⟨"lvg-a", ["node-1"], 5 * 2 ^ 30, []⟩, ⟨"lvg-b", ["node-2"], 12 * 2 ^ 30, []⟩,
       ⟨"lvg-c", ["node-3"], 12 * 2 ^ 30, []⟩] params LVMTypeThick
      = .ok ("node-2", 12 * 2 ^ 30) ∧
    GetNodeMaxFreeVGSize
      [⟨"lvg-a", ["node-1"], 6 * 2 ^ 30, 2 ^ 30⟩, ⟨"lvg-b", ["node-2"], 13 * 2 ^ 30, 2 ^ 30⟩,
       ⟨"lvg-c", ["node-3"], 14 * 2 ^ 30, 2 * 2 ^ 30⟩]
      = ("node-2", 12 * 2 ^ 30) := by
  refine ⟨?_, ?_, ?_, rfl, rfl⟩
  · have hred : GetNodeWithMaxFreeSpace lvgs params LVMTypeThick =
        .ok (maxFreeGo (lvgs.map fun g => (g.nodes.headD "", g.vgFree)) "" 0) :=
      getNodeWithMaxFreeSpaceGo_thick params lvgs "" 0 0
    obtain ⟨g, hg, hgpos⟩ := hpos
    obtain ⟨i, hi, heq, hbef, halle⟩ :=
      maxFreeGo_first_argmax (lvgs.map fun g => (g.nodes.headD "", g.vgFree))
        ⟨(g.nodes.headD "", g.vgFree), List.mem_map_of_mem _ hg, hgpos⟩
    have hlen : i < lvgs.length := by simpa using hi
    refine ⟨i, hlen, ?_, ?_, ?_⟩
    · rw [hred, heq]
      congr 1
      simp
    · intro j hj hjlen
      have := hbef j hj (by simpa using hjlen)
      simpa using this
    · intro j hjlen
      have := halle j (by simpa using hjlen)
      simpa using this
  · intro tlvgs f hok hfpos
    have hred : GetNodeWithMaxFreeSpace tlvgs params LVMTypeThin =
        .ok (maxFreeGo (tlvgs.map fun g => (g.nodes.headD "", f g)) "" 0) :=
      getNodeWithMaxFreeSpaceGo_thin params f tlvgs hok "" 0 0
    obtain ⟨g, hg, hgpos⟩ := hfpos
    obtain ⟨i, hi, heq, hbef, halle⟩ :=
      maxFreeGo_first_argmax (tlvgs.map fun g => (g.nodes.headD "", f g))
        ⟨(g.nodes.headD "", f g), List.mem_map_of_mem _ hg, hgpos⟩
    have hlen : i < tlvgs.length := by simpa using hi
    refine ⟨i, hlen, ?_, ?_, ?_⟩
    · rw [hred, heq]
      congr 1
      simp
    · intro j hj hjlen
      have := hbef j hj (by simpa using hjlen)
      simpa using this
    · intro j hjlen
      have := halle j (by simpa using hjlen)
      simpa using this
  · intro items hfpos
    have hred : GetNodeMaxFreeVGSize items =
        maxFreeGo (items.map fun g => (g.nodes.headD "", GetLVMVolumeGroupFreeSpace g))
          "" 0 :=
      getNodeMaxFreeVGSizeGo_eq items "" 0
    obtain ⟨g, hg, hgpos⟩ := hfpos
    obtain ⟨i, hi, heq, hbef, halle⟩ :=
      maxFreeGo_first_argmax
        (items.map fun g => (g.nodes.headD "", GetLVMVolumeGroupFreeSpace g))
        ⟨(g.nodes.headD "", GetLVMVolumeGroupFreeSpace g), List.mem_map_of_mem _ hg, hgpos⟩
    have hlen : i < items.length := by simpa using hi
    refine ⟨i, hlen, ?_, ?_, ?_⟩
    · rw [hred, heq]
      simp
    · intro j hj hjlen
      have := hbef j hj (by simpa using hjlen)
      simpa using this
    · intro j hjlen
      have := halle j (by simpa using hjlen)
      simpa using this

/-- The `[5Gi, 12Gi, 12Gi]` tie list on three nodes. -/
def tieGroups : List LVMVolumeGroup :=
  [⟨"lvg-a", ["node-1"], 5 * 2 ^ 30, []⟩, ⟨"lvg-b", ["node-2"], 12 * 2 ^ 30, []⟩,
   ⟨"lvg-c", ["node-3"], 12 * 2 ^ 30, []⟩]

/-- Witness for C1: the three-group tie list has a positive group, and the
selector returns the first 12Gi group's node. -/
theorem claim_C1_witness :
    GetNodeWithMaxFreeSpace tieGroups (fun _ => none) LVMTypeThick
      = .ok ("node-2", 12 * 2 ^ 30) :=
  (claim_C1_theorem tieGroups (fun _ => none)
    ⟨⟨"lvg-b", ["node-2"], 12 * 2 ^ 30, []⟩, by decide, by decide⟩).2.2.2.1

/-- Claim C9: with no strictly positive free space anywhere — including
the empty list — both selectors return the empty node name and a zero
quantity with no error, giving callers no signal that nothing was
selected. -/
theorem claim_C9_theorem (params : String → Option String) :
    (∀ (lvgs : List LVMVolumeGroup), (∀ g ∈ lvgs, g.vgFree ≤ 0) →
      GetNodeWithMaxFreeSpace lvgs params LVMTypeThick = .ok ("", 0)) ∧
    (∀ (lvgs : List LVMVolumeGroup) (f : LVMVolumeGroup → Int),
      (∀ g ∈ lvgs, thinPoolFreeSpaceOf params g = .ok (f g)) →
      (∀ g ∈ lvgs, f g ≤ 0) →
      GetNodeWithMaxFreeSpace lvgs params LVMTypeThin = .ok ("", 0)) ∧
    (∀ (items : List LvmVolumeGroup), (∀ g ∈ items, GetLVMVolumeGroupFreeSpace g ≤ 0) →
      GetNodeMaxFreeVGSize items = ("", 0)) ∧
    (∀ (lvmType : String), GetNodeWithMaxFreeSpace [] params lvmType = .ok ("", 0)) ∧
    GetNodeMaxFreeVGSize [] = ("", 0) := by
  refine ⟨?_, ?_, ?_, fun _ => rfl, rfl⟩
  · intro lvgs h
    rw [GetNodeWithMaxFreeSpace, getNodeWithMaxFreeSpaceGo_thick params lvgs "" 0 0,
      maxFreeGo_of_all_le]
    intro p hp
    obtain ⟨g, hg, hgp⟩ := List.mem_map.mp hp
    rw [← hgp]
    exact h g hg
  · intro lvgs f hok h
    rw [GetNodeWithMaxFreeSpace, getNodeWithMaxFreeSpaceGo_thin params f lvgs hok "" 0 0,
      maxFreeGo_of_all_le]
    intro p hp
    obtain ⟨g, hg, hgp⟩ := List.mem_map.mp hp
    rw [← hgp]
    exact h g hg
  · intro items h
    rw [show GetNodeMaxFreeVGSize items = getNodeMaxFreeVGSizeGo items "" 0 from rfl,
      getNodeMaxFreeVGSizeGo_eq items "" 0, maxFreeGo_of_all_le]
    intro p hp
    obtain ⟨g, hg, hgp⟩ := List.mem_map.mp hp
    rw [← hgp]
    exact h g hg

/-- Witness for C9: a zero-free and a negative-free group yield the empty
selection with no error. -/
theorem claim_C9_witness :
    GetNodeWithMaxFreeSpace
      [⟨"lvg-a", ["node-1"], 0, []⟩, ⟨"lvg-b", ["node-2"], -5, []⟩]
      (fun _ => none) LVMTypeThick = .ok ("", 0) :=
  (claim_C9_theorem (fun _ => none)).1 _ (by decide)

/-! ### `WaitForStatusUpdate` (the ConvergencePoller)

Both variants loop forever: bump the attempt counter, check the context
at a `select` (then sleep 500 ms), fetch the record, and inspect it.  The
sds-local-volume-csi variant, inside `if llv.Status != nil`, first checks
`llv.DeletionTimestamp != nil`, then `Phase == Failed`, then
`Phase == Created && sizeEquals`.  The sds-lvm-csi variant has no
deletion-timestamp check.  Each attempt's environment interaction is one
`WaitObservation`; consuming the whole list without returning models the
still-running loop as `none`. -/

def LLVStatusCreated : String := "Created"

def LLVStatusFailed : String := "Failed"

structure LVMLogicalVolumeStatus where
  phase : String
  reason : String
  actualSize : Int
  deriving DecidableEq, Repr

/-- The fields of a fetched `LVMLogicalVolume` the poller inspects:
`Status` (possibly still unset) and whether `DeletionTimestamp` is
non-nil. -/
structure LLVWaitView where
  status : Option LVMLogicalVolumeStatus
  deletionTimestamp : Bool
  deriving DecidableEq, Repr

/-- One polling attempt's environment interaction. -/
inductive WaitObservation where
  | ctxDone
  | getErr
  | record (llv : LLVWaitView)
  deriving DecidableEq, Repr

inductive WaitOutcome where
  | success
  | ctxErr
  | fetchFailed
  | volumeDeleting
  | volumeFailed (reason : String)
  deriving DecidableEq, Repr

/-- `WaitForStatusUpdate` of sds-local-volume-csi. -/
def WaitForStatusUpdateLocal (llvSize delta : Int) :
    List WaitObservation → Nat → Option (Nat × WaitOutcome)
  | [], _ => none
  | o :: rest, attemptCounter =>
    let a := attemptCounter + 1
    match o with
    | .ctxDone => some (a, .ctxErr)
    | .getErr => some (a, .fetchFailed)
    | .record llv =>
      match llv.status with
      | none => WaitForStatusUpdateLocal llvSize delta rest a
      | some st =>
        if llv.deletionTimestamp then some (a, .volumeDeleting)
        else if st.phase = LLVStatusFailed then some (a, .volumeFailed st.reason)
        else if st.phase = LLVStatusCreated then
          if AreSizesEqualWithinDelta llvSize st.actualSize delta then some (a, .success)
          else WaitForStatusUpdateLocal llvSize delta rest a
        else WaitForStatusUpdateLocal llvSize delta rest a

/-- `WaitForStatusUpdate` of sds-lvm-csi (no deletion-timestamp check). -/
def WaitForStatusUpdateLvm (llvSize delta : Int) :
    List WaitObservation → Nat → Option (Nat × WaitOutcome)
  | [], _ => none
  | o :: rest, attemptCounter =>
    let a := attemptCounter + 1
    match o with
    | .ctxDone => some (a, .ctxErr)
    | .getErr => some (a, .fetchFailed)
    | .record llv =>
      match llv.status with
      | none => WaitForStatusUpdateLvm llvSize delta rest a
      | some st =>
        if st.phase = LLVStatusFailed then some (a, .volumeFailed st.reason)
        else if st.phase = LLVStatusCreated ∧
            AreSizesEqualWithinDelta llvSize st.actualSize delta = true then
          some (a, .success)
        else WaitForStatusUpdateLvm llvSize delta rest a

/-- An observation on which the sds-local-volume-csi poller keeps
waiting. -/
def nonTerminalLocal (llvSize delta : Int) (o : WaitObservation) : Bool :=
  match o with
  | .record llv =>
    match llv.status with
    | none => true
    | some st =>
      !llv.deletionTimestamp && !(st.phase == LLVStatusFailed) &&
        !(st.phase == LLVStatusCreated && AreSizesEqualWithinDelta llvSize st.actualSize delta)
  | _ => false

/-- An observation on which the sds-lvm-csi poller keeps waiting. -/
def nonTerminalLvm (llvSize delta : Int) (o : WaitObservation) : Bool :=
  match o with
  | .record llv =>
    match llv.status with
    | none => true
    | some st =>
      !(st.phase == LLVStatusFailed) &&
        !(st.phase == LLVStatusCreated && AreSizesEqualWithinDelta llvSize st.actualSize delta)
  | _ => false

theorem waitLocal_step (llvSize delta : Int) (o : WaitObservation)
    (rest : List WaitObservation) (a : Nat)
    (h : nonTerminalLocal llvSize delta o = true) :
    WaitForStatusUpdateLocal llvSize delta (o :: rest) a =
      WaitForStatusUpdateLocal llvSize delta rest (a + 1) := by
  cases o with
  | ctxDone => simp [nonTerminalLocal] at h
  | getErr => simp [nonTerminalLocal] at h
  | record llv =>
    cases hst : llv.status with
    | none => simp [WaitForStatusUpdateLocal, hst]
    | some st =>
      simp only [nonTerminalLocal, hst, Bool.and_eq_true, Bool.not_eq_true',
        Bool.not_eq_true, beq_eq_false_iff_ne, ne_eq] at h
      obtain ⟨⟨hdel, hfail⟩, hcr⟩ := h
      simp only [WaitForStatusUpdateLocal, hst]
      rw [if_neg (by simp [hdel]), if_neg hfail]
      by_cases hc : st.phase = LLVStatusCreated
      · rw [if_pos hc]
        have hsz : AreSizesEqualWithinDelta llvSize st.actualSize delta = false := by
          rcases Bool.and_eq_false_iff.mp hcr with h1 | h1
          · exact absurd hc (by simpa using h1)
          · exact h1
        rw [if_neg (by simp [hsz])]
      · rw [if_neg hc]

theorem waitLvm_step (llvSize delta : Int) (o : WaitObservation)
    (rest : List WaitObservation) (a : Nat)
    (h : nonTerminalLvm llvSize delta o = true) :
    WaitForStatusUpdateLvm llvSize delta (o :: rest) a =
      WaitForStatusUpdateLvm llvSize delta rest (a + 1) := by
  cases o with
  | ctxDone => simp [nonTerminalLvm] at h
  | getErr => simp [nonTerminalLvm] at h
  | record llv =>
    cases hst : llv.status with
    | none => simp [WaitForStatusUpdateLvm, hst]
    | some st =>
      simp only [nonTerminalLvm, hst, Bool.and_eq_true, Bool.not_eq_true',
        Bool.not_eq_true, beq_eq_false_iff_ne, ne_eq] at h
      obtain ⟨hfail, hcr⟩ := h
      simp only [WaitForStatusUpdateLvm, hst]
      rw [if_neg hfail, if_neg]
      intro hand
      rcases Bool.and_eq_false_iff.mp hcr with h1 | h1
      · exact absurd hand.1 (by simpa using h1)
      · rw [h1] at hand
        exact absurd hand.2 (by simp)

theorem waitLocal_append (llvSize delta : Int) (pre : List WaitObservation)
    (hpre : ∀ o ∈ pre, nonTerminalLocal llvSize delta o = true) :
    ∀ (rest : List WaitObservation) (a : Nat),
      WaitForStatusUpdateLocal llvSize delta (pre ++ rest) a =
        WaitForStatusUpdateLocal llvSize delta rest (a + pre.length) := by
  induction pre with
  | nil => intro rest a; simp
  | cons o pre ih =>
    intro rest a
    rw [List.cons_append, waitLocal_step llvSize delta o (pre ++ rest) a (hpre o (by simp)),
      ih (fun q hq => hpre q (by simp [hq])) rest (a + 1)]
    congr 1
    simp only [List.length_cons]
    omega

theorem waitLvm_append (llvSize delta : Int) (pre : List WaitObservation)
    (hpre : ∀ o ∈ pre, nonTerminalLvm llvSize delta o = true) :
    ∀ (rest : List WaitObservation) (a : Nat),
      WaitForStatusUpdateLvm llvSize delta (pre ++ rest) a =
        WaitForStatusUpdateLvm llvSize delta rest (a + pre.length) := by
  induction pre with
  | nil => intro rest a; simp
  | cons o pre ih =>
    intro rest a
    rw [List.cons_append, waitLvm_step llvSize delta o (pre ++ rest) a (hpre o (by simp)),
      ih (fun q hq => hpre q (by simp [hq])) rest (a + 1)]
    congr 1
    simp only [List.length_cons]
    omega

/-- Claim C2 counterexample: in the sds-local-volume-csi variant the
deletion check precedes the `Failed` check, so on a first observation
whose phase is `Failed` but which also has deletion requested the call
returns the deletion error, not `VolumeFailed`. -/
theorem claim_C2_counterexample :
    WaitForStatusUpdateLocal (10 * 2 ^ 30) (2 ^ 30)
      [.record ⟨some ⟨"Failed", "no space", 0⟩, true⟩] 0
      = some (1, .volumeDeleting) ∧
    WaitOutcome.volumeDeleting ≠ WaitOutcome.volumeFailed "no space" :=
  ⟨rfl, by decide⟩

/-- Claim C2 (amended): the sds-lvm-csi `WaitForStatusUpdate` returns
`VolumeFailed(reason)` on the first observation whose phase is `Failed`
and success on the first whose phase is `Created` with size within the
tolerance, regardless of what follows; the sds-local-volume-csi variant
does the same provided the terminal record does not have deletion
requested (a pending deletion takes precedence there).  Fed
`[Pending, Pending, Created+wrong-size, Created+right-size]` both succeed
with attempt counter 4. -/
theorem claim_C2_theorem (llvSize delta : Int) :
    (∀ (pre rest : List WaitObservation) (st : LVMLogicalVolumeStatus) (d : Bool),
      (∀ o ∈ pre, nonTerminalLvm llvSize delta o = true) →
      st.phase = LLVStatusFailed →
      WaitForStatusUpdateLvm llvSize delta (pre ++ .record ⟨some st, d⟩ :: rest) 0 =
        some (pre.length + 1, .volumeFailed st.reason)) ∧
    (∀ (pre rest : List WaitObservation) (st : LVMLogicalVolumeStatus) (d : Bool),
      (∀ o ∈ pre, nonTerminalLvm llvSize delta o = true) →
      st.phase = LLVStatusCreated →
      AreSizesEqualWithinDelta llvSize st.actualSize delta = true →
      WaitForStatusUpdateLvm llvSize delta (pre ++ .record ⟨some st, d⟩ :: rest) 0 =
        some (pre.length + 1, .success)) ∧
    (∀ (pre rest : List WaitObservation) (st : LVMLogicalVolumeStatus),
      (∀ o ∈ pre, nonTerminalLocal llvSize delta o = true) →
      st.phase = LLVStatusFailed →
      WaitForStatusUpdateLocal llvSize delta (pre ++ .record ⟨some st, false⟩ :: rest) 0 =
        some (pre.length + 1, .volumeFailed st.reason)) ∧
    (∀ (pre rest : List WaitObservation) (st : LVMLogicalVolumeStatus),
      (∀ o ∈ pre, nonTerminalLocal llvSize delta o = true) →
      st.phase = LLVStatusCreated →
      AreSizesEqualWithinDelta llvSize st.actualSize delta = true →
      WaitForStatusUpdateLocal llvSize delta (pre ++ .record ⟨some st, false⟩ :: rest) 0 =
        some (pre.length + 1, .success)) ∧
    WaitForStatusUpdateLvm (10 * 2 ^ 30) (2 ^ 30)
      [.record ⟨some ⟨"Pending", "", 0⟩, false⟩, .record ⟨some ⟨"Pending", "", 0⟩, false⟩,
       .record ⟨some ⟨"Created", "", 8 * 2 ^ 30⟩, false⟩,
       .record ⟨some ⟨"Created", "", 10 * 2 ^ 30⟩, false⟩] 0 = some (4, .success) ∧
    WaitForStatusUpdateLocal (10 * 2 ^ 30) (2 ^ 30)
      [.record ⟨some ⟨"Pending", "", 0⟩, false⟩, .record ⟨some ⟨"Pending", "", 0⟩, false⟩,
       .record ⟨some ⟨"Created", "", 8 * 2 ^ 30⟩, false⟩,
       .record ⟨some ⟨"Created", "", 10 * 2 ^ 30⟩, false⟩] 0 = some (4, .success) := by
  refine ⟨?_, ?_, ?_, ?_, rfl, rfl⟩
  · intro pre rest st d hpre hfail
    rw [waitLvm_append llvSize delta pre hpre, Nat.zero_add]
    simp only [WaitForStatusUpdateLvm]
    rw [if_pos hfail]
  · intro pre rest st d hpre hcr hsz
    rw [waitLvm_append llvSize delta pre hpre, Nat.zero_add]
    simp only [WaitForStatusUpdateLvm]
    rw [if_neg (by rw [hcr]; decide), if_pos ⟨hcr, hsz⟩]
  · intro pre rest st hpre hfail
    rw [waitLocal_append llvSize delta pre hpre, Nat.zero_add]
    simp only [WaitForStatusUpdateLocal]
    rw [if_neg (by simp), if_pos hfail]
  · intro pre rest st hpre hcr hsz
    rw [waitLocal_append llvSize delta pre hpre, Nat.zero_add]
    simp only [WaitForStatusUpdateLocal]
    rw [if_neg (by simp), if_neg (by rw [hcr]; decide), if_pos hcr, if_pos hsz]

/-- Witness for C2: one pending observation, then a `Failed` one; the
poller fails on attempt 2 with the record's reason. -/
theorem claim_C2_witness :
    WaitForStatusUpdateLvm (10 * 2 ^ 30) (2 ^ 30)
      [.record ⟨some ⟨"Pending", "", 0⟩, false⟩,
       .record ⟨some ⟨"Failed", "no space", 0⟩, false⟩] 0
      = some (2, .volumeFailed "no space") := by
  have h := (claim_C2_theorem (10 * 2 ^ 30) (2 ^ 30)).1
    [.record ⟨some ⟨"Pending", "", 0⟩, false⟩] []
    ⟨"Failed", "no space", 0⟩ false (by decide) rfl
  simpa using h

/-- Claim C7 counterexample: a deletion-requested record with nil status
is not checked (the deletion test sits inside `if llv.Status != nil`), so
the sds-local-volume-csi poller keeps waiting past it; and the
sds-lvm-csi variant performs no deletion check at all, succeeding on a
deletion-requested `Created` record. -/
theorem claim_C7_counterexample :
    WaitForStatusUpdateLocal (10 * 2 ^ 30) (2 ^ 30)
      [.record ⟨none, true⟩, .record ⟨some ⟨"Created", "", 10 * 2 ^ 30⟩, false⟩] 0
      = some (2, .success) ∧
    WaitForStatusUpdateLvm (10 * 2 ^ 30) (2 ^ 30)
      [.record ⟨some ⟨"Created", "", 10 * 2 ^ 30⟩, true⟩] 0 = some (1, .success) :=
  ⟨rfl, rfl⟩

/-- Claim C7 (amended): in the sds-local-volume-csi `WaitForStatusUpdate`,
a fetched record with non-nil status and deletion requested returns the
deletion error on that same attempt, regardless of phase, size and
whatever observations follow.  (Records with nil status are not checked,
and the sds-lvm-csi variant has no deletion check.) -/
theorem claim_C7_theorem (llvSize delta : Int) (st : LVMLogicalVolumeStatus)
    (rest : List WaitObservation) (a : Nat) :
    WaitForStatusUpdateLocal llvSize delta (.record ⟨some st, true⟩ :: rest) a =
      some (a + 1, .volumeDeleting) :=
  rfl

/-! ### `removeLLVFinalizerIfExist` (the FinalizerReleaser)

```go
for attempt := 0; attempt < KubernetesAPIRequestLimit; attempt++ {
    removed := false
    for i, val := range llv.Finalizers {
        if val == finalizer { llv.Finalizers = slices.Delete(llv.Finalizers, i, i+1); removed = true; break }
    }
    if !removed { return false, nil }
    err := kc.Update(ctx, llv)
    if err == nil { return true, nil }
    if !kerrors.IsConflict(err) { return false, wrap(err) }
    if attempt < KubernetesAPIRequestLimit-1 {
        // ctx check, sleep, re-fetch; on success *llv = *freshLLV
    }
}
return false, fmt.Errorf("after %d attempts of removing finalizer %s from LVMLogicalVolume %s, last error: %w", KubernetesAPIRequestLimit, finalizer, llv.Name, nil)
```

The store is scripted: `update attempt` is the outcome of the Update call
issued on that attempt, `refetch attempt` the outcome of the re-fetch
after that attempt's conflict (the context is modelled as never
cancelled).  The second component of the result is `llv.Finalizers` as
the caller sees it on return (the Go code mutates the record in place).
Note the final `fmt.Errorf` passes a literal `nil` as its `%w` argument:
the exhaustion error wraps nothing, modelled as `budgetExhausted none`. -/

def KubernetesAPIRequestLimit : Nat := 3

def SDSLocalVolumeCSIFinalizer : String := "storage.deckhouse.io/sds-local-volume-csi"

inductive UpdateResult where
  | ok
  | conflict
  | otherError
  deriving DecidableEq, Repr

inductive RemoveOutcome where
  | removedOk
  | notPresent
  | updateFailed
  | getFailed
  | budgetExhausted (lastWrapped : Option UpdateResult)
  deriving DecidableEq, Repr

def removeLLVFinalizerIfExistGo (finalizer : String) (update : Nat → UpdateResult)
    (refetch : Nat → Except Unit (List String)) (attempt : Nat) (fins : List String) :
    RemoveOutcome × List String :=
  if _h : attempt < KubernetesAPIRequestLimit then
    if fins.contains finalizer then
      match update attempt with
      | .ok => (.removedOk, fins.erase finalizer)
      | .otherError => (.updateFailed, fins.erase finalizer)
      | .conflict =>
        if attempt < KubernetesAPIRequestLimit - 1 then
          match refetch attempt with
          | .error _ => (.getFailed, fins.erase finalizer)
          | .ok freshFins =>
            removeLLVFinalizerIfExistGo finalizer update refetch (attempt + 1) freshFins
        else
          removeLLVFinalizerIfExistGo finalizer update refetch (attempt + 1)
            (fins.erase finalizer)
    else (.notPresent, fins)
  else (.budgetExhausted none, fins)
termination_by KubernetesAPIRequestLimit - attempt
decreasing_by
  all_goals omega

def removeLLVFinalizerIfExist (fins : List String) (finalizer : String)
    (update : Nat → UpdateResult) (refetch : Nat → Except Unit (List String)) :
    RemoveOutcome × List String :=
  removeLLVFinalizerIfExistGo finalizer update refetch 0 fins

theorem list_contains_of_mem {l : List String} {a : String} (h : a ∈ l) :
    l.contains a = true := by
  simp [List.contains, h]

theorem list_contains_eq_false_of_not_mem {l : List String} {a : String} (h : a ∉ l) :
    l.contains a = false := by
  simp [List.contains, h]

/-- With conflicts on the first `k` attempts (each re-fetch returning a
record still holding the token) and success on attempt `k < budget`, the
release reports the token removed. -/
theorem removeGo_success (f : String) (update : Nat → UpdateResult)
    (refetch : Nat → Except Unit (List String)) :
    ∀ (k attempt : Nat) (fins : List String),
      attempt + k < KubernetesAPIRequestLimit →
      f ∈ fins →
      (∀ i, i < k → update (attempt + i) = .conflict) →
      update (attempt + k) = .ok →
      (∀ i, i < k → ∃ fr, refetch (attempt + i) = .ok fr ∧ f ∈ fr) →
      (removeLLVFinalizerIfExistGo f update refetch attempt fins).1 = .removedOk := by
  intro k
  induction k with
  | zero =>
    intro attempt fins hlt hmem hconf hok hget
    unfold removeLLVFinalizerIfExistGo
    rw [dif_pos (by omega), if_pos (list_contains_of_mem hmem),
      show update attempt = .ok from by simpa using hok]
  | succ k ih =>
    intro attempt fins hlt hmem hconf hok hget
    unfold removeLLVFinalizerIfExistGo
    rw [dif_pos (by omega), if_pos (list_contains_of_mem hmem),
      show update attempt = .conflict from by simpa using hconf 0 (by omega),
      if_pos (show attempt < KubernetesAPIRequestLimit - 1 by omega)]
    obtain ⟨fr, hfr, hfrmem⟩ := hget 0 (by omega)
    rw [show refetch attempt = .ok fr from by simpa using hfr]
    refine ih (attempt + 1) fr (by omega) hfrmem ?_ ?_ ?_
    · intro i hi
      have := hconf (i + 1) (by omega)
      rwa [show attempt + (i + 1) = attempt + 1 + i by omega] at this
    · have := hok
      rwa [show attempt + (k + 1) = attempt + 1 + k by omega] at this
    · intro i hi
      have := hget (i + 1) (by omega)
      rwa [show attempt + (i + 1) = attempt + 1 + i by omega] at this

/-- With every Update conflicting (and every re-fetch succeeding with the
token still present), the budget is exhausted and the result is the
wrapped-`nil` exhaustion error. -/
theorem removeGo_exhaust (f : String) (update : Nat → UpdateResult)
    (refetch : Nat → Except Unit (List String))
    (hconf : ∀ i, update i = .conflict)
    (hget : ∀ i, ∃ fr, refetch i = .ok fr ∧ f ∈ fr) :
    ∀ (n attempt : Nat) (fins : List String),
      KubernetesAPIRequestLimit - attempt = n → f ∈ fins →
      (removeLLVFinalizerIfExistGo f update refetch attempt fins).1 =
        .budgetExhausted none := by
  intro n
  induction n with
  | zero =>
    intro attempt fins hn hmem
    unfold removeLLVFinalizerIfExistGo
    rw [dif_neg (by omega)]
  | succ n ih =>
    intro attempt fins hn hmem
    unfold removeLLVFinalizerIfExistGo
    rw [dif_pos (by omega), if_pos (list_contains_of_mem hmem), hconf attempt]
    by_cases hlast : attempt < KubernetesAPIRequestLimit - 1
    · rw [if_pos hlast]
      obtain ⟨fr, hfr, hfrmem⟩ := hget attempt
      rw [hfr]
      exact ih (attempt + 1) fr (by omega) hfrmem
    · rw [if_neg hlast]
      unfold removeLLVFinalizerIfExistGo
      rw [dif_neg (by omega)]

/-- Claim C4 (code bug): with the token present and `k < N` leading
conflicts followed by success the call reports the token removed,
re-fetching after each conflict — this half of the claim holds.  But when
all `N` Updates conflict, the exhaustion error wraps `nil` (the Go code
passes a literal `nil` to the final `fmt.Errorf` `%w` verb), so contrary
to the claim it does not name the last conflict. -/
theorem claim_C4_theorem (finalizer : String) (fins : List String)
    (update : Nat → UpdateResult) (refetch : Nat → Except Unit (List String))
    (hmem : finalizer ∈ fins) :
    (∀ k, k < KubernetesAPIRequestLimit →
      (∀ i, i < k → update i = .conflict) → update k = .ok →
      (∀ i, i < k → ∃ fr, refetch i = .ok fr ∧ finalizer ∈ fr) →
      (removeLLVFinalizerIfExist fins finalizer update refetch).1 = .removedOk) ∧
    ((∀ i, update i = .conflict) →
      (∀ i, ∃ fr, refetch i = .ok fr ∧ finalizer ∈ fr) →
      (removeLLVFinalizerIfExist fins finalizer update refetch).1 =
        .budgetExhausted none) := by
  constructor
  · intro k hk hconf hok hget
    exact removeGo_success finalizer update refetch k 0 fins (by omega) hmem
      (fun i hi => by simpa using hconf i hi) (by simpa using hok)
      (fun i hi => by simpa using hget i hi)
  · intro hconf hget
    exact removeGo_exhaust finalizer update refetch hconf hget
      KubernetesAPIRequestLimit 0 fins (by omega) hmem

/-- Witness for C4: one conflict, a re-fetch that still holds the token,
then a successful Update: removed within the budget. -/
theorem claim_C4_witness :
    (removeLLVFinalizerIfExist [SDSLocalVolumeCSIFinalizer] SDSLocalVolumeCSIFinalizer
      (fun i => if i = 0 then .conflict else .ok)
      (fun _ => .ok [SDSLocalVolumeCSIFinalizer])).1 = .removedOk :=
  (claim_C4_theorem SDSLocalVolumeCSIFinalizer [SDSLocalVolumeCSIFinalizer]
    (fun i => if i = 0 then .conflict else .ok)
    (fun _ => .ok [SDSLocalVolumeCSIFinalizer])
    (by decide)).1 1 (by decide)
    (fun i hi => by
      have : i = 0 := by omega
      subst this
      rfl)
    rfl
    (fun i _ => ⟨[SDSLocalVolumeCSIFinalizer], rfl, by decide⟩)

/-- Claim C8: with the token absent the release is an immediate no-op:
`(false, nil)` — for every store script, so no Update can influence the
result — and the record's finalizer list is returned unchanged. -/
theorem claim_C8_theorem (fins : List String) (finalizer : String)
    (h : finalizer ∉ fins) (update : Nat → UpdateResult)
    (refetch : Nat → Except Unit (List String)) :
    removeLLVFinalizerIfExist fins finalizer update refetch = (.notPresent, fins) := by
  unfold removeLLVFinalizerIfExist removeLLVFinalizerIfExistGo
  rw [dif_pos (by decide), if_neg (by rw [list_contains_eq_false_of_not_mem h]; simp)]

/-- Witness for C8: a record holding only a foreign token is untouched. -/
theorem claim_C8_witness :
    removeLLVFinalizerIfExist ["other.io/token"]
      "storage.deckhouse.io/sds-local-volume-csi"
      (fun _ => .conflict) (fun _ => .error ()) = (.notPresent, ["other.io/token"]) :=
  claim_C8_theorem ["other.io/token"] "storage.deckhouse.io/sds-local-volume-csi"
    (by decide) (fun _ => .conflict) (fun _ => .error ())

/-! ### `CreateLVMLogicalVolume` and `DeleteLVMLogicalVolume`

sds-lvm-csi (the retrying ResourceClient):

```go
for attempt := 0; attempt < KubernetesApiRequestLimit; attempt++ {
    err = kc.Create(ctx, llv)
    if err == nil { return llv, nil }
    if kerrors.IsAlreadyExists(err) { return nil, err }
    time.Sleep(KubernetesApiRequestTimeout)
}
if err != nil {
    return nil, fmt.Errorf("after %d attempts of creating LVMLogicalVolume %s, last error: %w", KubernetesApiRequestLimit, name, err)
}
```

`create attempt` scripts the store outcome of each Create call.

`DeleteLVMLogicalVolume` has the same loop shape, but its loop body uses
`err := kc.Delete(ctx, llv)` — a short variable declaration that shadows
the outer `var err error`.  The post-loop `if err != nil` therefore reads
the never-assigned outer variable, which is still `nil`; this shadowing
is modelled by threading the outer error separately from the per-attempt
result. -/

def KubernetesApiRequestLimit : Nat := 3

inductive CreateStoreErr where
  | alreadyExists
  | transient
  deriving DecidableEq, Repr

inductive CreateResult where
  | created
  | alreadyExistsErr
  | wrappedAfterAttempts (attempts : Nat) (last : CreateStoreErr)
  deriving DecidableEq, Repr

/-- The post-loop `if err != nil` wrap of the sds-lvm-csi retry loops. -/
def createWrap (lastErr : Option CreateStoreErr) : CreateResult :=
  match lastErr with
  | some e => .wrappedAfterAttempts KubernetesApiRequestLimit e
  | none => .created

def createLVMLogicalVolumeGo (create : Nat → Option CreateStoreErr)
    (attempt : Nat) (lastErr : Option CreateStoreErr) : CreateResult :=
  if _h : attempt < KubernetesApiRequestLimit then
    match create attempt with
    | none => .created
    | some .alreadyExists => .alreadyExistsErr
    | some e => createLVMLogicalVolumeGo create (attempt + 1) (some e)
  else createWrap lastErr
termination_by KubernetesApiRequestLimit - attempt
decreasing_by
  all_goals omega

/-- `CreateLVMLogicalVolume` (sds-lvm-csi): the retry loop over the
scripted store outcomes; the outer `err` starts `nil`. -/
def CreateLVMLogicalVolume (create : Nat → Option CreateStoreErr) : CreateResult :=
  createLVMLogicalVolumeGo create 0 none

inductive DeleteResult where
  | success
  | wrappedAfterAttempts (attempts : Nat)
  deriving DecidableEq, Repr

def deleteLVMLogicalVolumeGo (del : Nat → Bool) (outerErrIsNil : Bool)
    (attempt : Nat) : DeleteResult :=
  if _h : attempt < KubernetesApiRequestLimit then
    if del attempt then .success
    else deleteLVMLogicalVolumeGo del outerErrIsNil (attempt + 1)
  else
    if outerErrIsNil then .success
    else .wrappedAfterAttempts KubernetesApiRequestLimit
termination_by KubernetesApiRequestLimit - attempt
decreasing_by
  all_goals omega

/-- `DeleteLVMLogicalVolume` (sds-lvm-csi): `del attempt` is whether that
attempt's `kc.Delete` succeeded; the outer `err` is never assigned (the
loop's `err :=` shadows it), so it enters the post-loop check as `nil`. -/
def DeleteLVMLogicalVolume (del : Nat → Bool) : DeleteResult :=
  deleteLVMLogicalVolumeGo del true 0

structure ObjectMeta where
  name : String
  ownerReferences : List String
  finalizers : List String
  deriving DecidableEq, Repr

structure LVMLogicalVolume (Spec : Type) where
  metadata : ObjectMeta
  spec : Spec

/-- `CreateLVMLogicalVolume` (sds-local-volume-csi): builds the record
with the coordinator finalizer, issues a single unretried `kc.Create`
(outcome `createErr`), and returns the built record together with that
error as-is. -/
def CreateLVMLogicalVolumeLocal (Spec : Type) (name : String) (spec : Spec)
    (createErr : Option CreateStoreErr) :
    LVMLogicalVolume Spec × Option CreateStoreErr :=
  ({ metadata :=
      { name := name
        ownerReferences := []
        finalizers := [SDSLocalVolumeCSIFinalizer] }
     spec := spec },
   createErr)

theorem createGo_alreadyExists (create : Nat → Option CreateStoreErr) :
    ∀ (k attempt : Nat) (lastErr : Option CreateStoreErr),
      attempt + k < KubernetesApiRequestLimit →
      (∀ i, i < k → create (attempt + i) = some .transient) →
      create (attempt + k) = some .alreadyExists →
      createLVMLogicalVolumeGo create attempt lastErr = .alreadyExistsErr := by
  intro k
  induction k with
  | zero =>
    intro attempt lastErr hlt hconf hk
    unfold createLVMLogicalVolumeGo
    rw [dif_pos (by omega), show create attempt = some .alreadyExists from by simpa using hk]
  | succ k ih =>
    intro attempt lastErr hlt hconf hk
    unfold createLVMLogicalVolumeGo
    rw [dif_pos (by omega), show create attempt = some .transient from by
      simpa using hconf 0 (by omega)]
    refine ih (attempt + 1) (some .transient) (by omega) ?_ ?_
    · intro i hi
      have := hconf (i + 1) (by omega)
      rwa [show attempt + (i + 1) = attempt + 1 + i by omega] at this
    · have := hk
      rwa [show attempt + (k + 1) = attempt + 1 + k by omega] at this

theorem createGo_success (create : Nat → Option CreateStoreErr) :
    ∀ (k attempt : Nat) (lastErr : Option CreateStoreErr),
      attempt + k < KubernetesApiRequestLimit →
      (∀ i, i < k → create (attempt + i) = some .transient) →
      create (attempt + k) = none →
      createLVMLogicalVolumeGo create attempt lastErr = .created := by
  intro k
  induction k with
  | zero =>
    intro attempt lastErr hlt hconf hk
    unfold createLVMLogicalVolumeGo
    rw [dif_pos (by omega), show create attempt = none from by simpa using hk]
  | succ k ih =>
    intro attempt lastErr hlt hconf hk
    unfold createLVMLogicalVolumeGo
    rw [dif_pos (by omega), show create attempt = some .transient from by
      simpa using hconf 0 (by omega)]
    refine ih (attempt + 1) (some .transient) (by omega) ?_ ?_
    · intro i hi
      have := hconf (i + 1) (by omega)
      rwa [show attempt + (i + 1) = attempt + 1 + i by omega] at this
    · have := hk
      rwa [show attempt + (k + 1) = attempt + 1 + k by omega] at this

theorem createGo_exhaust (create : Nat → Option CreateStoreErr)
    (hconf : ∀ i, i < KubernetesApiRequestLimit → create i = some .transient) :
    ∀ (n attempt : Nat) (lastErr : Option CreateStoreErr),
      KubernetesApiRequestLimit - attempt = n →
      (lastErr = some .transient ∨ attempt < KubernetesApiRequestLimit) →
      createLVMLogicalVolumeGo create attempt lastErr =
        .wrappedAfterAttempts KubernetesApiRequestLimit .transient := by
  intro n
  induction n with
  | zero =>
    intro attempt lastErr hn hd
    unfold createLVMLogicalVolumeGo
    rw [dif_neg (by omega)]
    rcases hd with h | h
    · rw [h, createWrap]
    · exact absurd h (by omega)
  | succ n ih =>
    intro attempt lastErr hn hd
    unfold createLVMLogicalVolumeGo
    rw [dif_pos (by omega), show create attempt = some .transient from
      hconf attempt (by omega)]
    exact ih (attempt + 1) (some .transient) (by omega) (.inl rfl)

/-- Claim C6 counterexample: the sds-local-volume-csi
`CreateLVMLogicalVolume` issues exactly one unretried `kc.Create` (its
embedding consumes a single store outcome) and returns a transient store
error as-is — neither retried up to 3 attempts nor wrapped with an
attempt count. -/
theorem claim_C6_counterexample :
    (CreateLVMLogicalVolumeLocal Unit "pvc-1" () (some .transient)).2 =
      some .transient :=
  rfl

/-- Claim C6 (amended): the sds-lvm-csi `CreateLVMLogicalVolume` obeys
the bounded-retry policy — `AlreadyExists` propagates immediately at
whatever attempt it occurs, success returns the record, and after 3
transient failures the last error is returned wrapped with the attempt
count; the sds-local-volume-csi variant issues a single unretried Create
and returns the store outcome unchanged. -/
theorem claim_C6_theorem (create : Nat → Option CreateStoreErr) :
    (∀ k, k < KubernetesApiRequestLimit →
      (∀ i, i < k → create i = some .transient) → create k = some .alreadyExists →
      CreateLVMLogicalVolume create = .alreadyExistsErr) ∧
    (∀ k, k < KubernetesApiRequestLimit →
      (∀ i, i < k → create i = some .transient) → create k = none →
      CreateLVMLogicalVolume create = .created) ∧
    ((∀ i, i < KubernetesApiRequestLimit → create i = some .transient) →
      CreateLVMLogicalVolume create =
        .wrappedAfterAttempts KubernetesApiRequestLimit .transient) ∧
    (∀ (Spec : Type) (name : String) (spec : Spec) (e : Option CreateStoreErr),
      (CreateLVMLogicalVolumeLocal Spec name spec e).2 = e) := by
  refine ⟨?_, ?_, ?_, fun _ _ _ _ => rfl⟩
  · intro k hk hconf hae
    exact createGo_alreadyExists create k 0 none (by omega)
      (fun i hi => by simpa using hconf i hi) (by simpa using hae)
  · intro k hk hconf hok
    exact createGo_success create k 0 none (by omega)
      (fun i hi => by simpa using hconf i hi) (by simpa using hok)
  · intro hconf
    exact createGo_exhaust create hconf KubernetesApiRequestLimit 0 none rfl
      (.inr (by decide))

/-- Witness for C6: a transient failure then `AlreadyExists` propagates
the `AlreadyExists` error on attempt 2, unretried. -/
theorem claim_C6_witness :
    CreateLVMLogicalVolume (fun i => if i = 0 then some .transient else some .alreadyExists)
      = .alreadyExistsErr :=
  (claim_C6_theorem (fun i => if i = 0 then some .transient else some .alreadyExists)).1
    1 (by decide)
    (fun i hi => by
      have : i = 0 := by omega
      subst this
      rfl)
    rfl

/-- Claim C5 (code bug): when every `kc.Delete` attempt fails, the
function still returns `nil`.  The loop's `err := kc.Delete(ctx, llv)`
shadows the outer `var err error`, so the post-loop `if err != nil`
inspects the never-assigned outer variable and the wrapped terminal error
is unreachable — contradicting the claim (and the function's own
post-loop wrapping code). -/
theorem claim_C5_theorem (del : Nat → Bool) (hfail : ∀ i, del i = false) :
    DeleteLVMLogicalVolume del = .success := by
  unfold DeleteLVMLogicalVolume
  unfold deleteLVMLogicalVolumeGo
  rw [dif_pos (by decide), if_neg (by simp [hfail 0])]
  unfold deleteLVMLogicalVolumeGo
  rw [dif_pos (by decide), if_neg (by simp [hfail (0 + 1)])]
  unfold deleteLVMLogicalVolumeGo
  rw [dif_pos (by decide), if_neg (by simp [hfail (0 + 1 + 1)])]
  unfold deleteLVMLogicalVolumeGo
  rw [dif_neg (by decide), if_pos rfl]

/-- Witness for C5: the all-failures script returns success. -/
theorem claim_C5_witness : DeleteLVMLogicalVolume (fun _ => false) = .success :=
  claim_C5_theorem (fun _ => false) (fun _ => rfl)

/-- Claim C10: every record the sds-local-volume-csi
`CreateLVMLogicalVolume` builds and submits carries the coordinator's
finalizer token in its finalizer set, whatever the store then answers. -/
theorem claim_C10_theorem (Spec : Type) (name : String) (spec : Spec)
    (createErr : Option CreateStoreErr) :
    SDSLocalVolumeCSIFinalizer ∈
      (CreateLVMLogicalVolumeLocal Spec name spec createErr).1.metadata.finalizers := by
  simp [CreateLVMLogicalVolumeLocal]
